import Mathlib

/-!
Verification of the in-memory store, the completion gateway and the
WebSocket session handler of an Azure-based support-chat server.

The development shallowly embeds the TypeScript sources:
  * `server/storage.ts`   (class `MemStorage` and its seeded singleton),
  * `server/lib/openai.ts` (`generateResponse`, `detectLanguage`,
    `summarizeConversation`, `updateConversationContext`),
  * `server/routes.ts`    (the HTTP FAQ/CRM handlers and the `message`
    case of the WebSocket dispatcher).

JavaScript numbers that only ever hold integers (ids, counts, epoch
milliseconds) become `Nat`/`Int`; the FAQ-match confidence, compared
against the literal `0.8`, becomes `ℚ`.  Calls to the external
Azure OpenAI service are abstracted by an oracle record (`GenEnv`)
holding the outcome of each completion call made during one inbound
event; `JSON.parse` of an oracle-supplied payload is abstracted at the
same boundary (a constructor records whether the text parsed and, if
so, the shape of the parsed value).  `JSON` blobs the server never
inspects (conversation settings, CRM details) are carried as their
serialized text.
-/

/-- JavaScript `a || b` for an optional string: `null`/`undefined` and
the empty string are falsy, so they yield the default. -/
def jsOrStr (a : Option String) (dflt : String) : String :=
  match a with
  | none => dflt
  | some s => if s = "" then dflt else s

/-- JavaScript `a || null` for an optional string: the empty string is
falsy and collapses to `null`. -/
def jsOrNull (a : Option String) : Option String :=
  match a with
  | none => none
  | some s => if s = "" then none else some s

/-- JavaScript string falsiness test used by `getFAQs`
(`!faq.language`): `null`, `undefined` and `""` are falsy. -/
def jsStrFalsy (a : Option String) : Bool :=
  match a with
  | none => true
  | some s => s = ""

/-- ASCII lowercasing (`String.prototype.toLowerCase` on the ASCII
texts this server handles), implemented over the character list so the
kernel can evaluate it. -/
def strLower (s : String) : String := ⟨s.data.map Char.toLower⟩

/-- Embeds `String.prototype.trim`: strip whitespace from both ends. -/
def strTrim (s : String) : String :=
  ⟨((s.data.dropWhile Char.isWhitespace).reverse.dropWhile Char.isWhitespace).reverse⟩

/-- Does the second list start with the first? -/
def begins : List Char → List Char → Bool
  | [], _ => true
  | _ :: _, [] => false
  | p :: ps, c :: cs => p == c && begins ps cs

/-- Does the pattern occur anywhere in the list? -/
def occurs (pat : List Char) : List Char → Bool
  | [] => begins pat []
  | c :: cs => begins pat (c :: cs) || occurs pat cs

/-- JavaScript `String.prototype.includes`. -/
def jsIncludes (s pat : String) : Bool :=
  occurs pat.data s.data

/-- JavaScript `String.prototype.startsWith`. -/
def jsStartsWith (s pat : String) : Bool :=
  begins pat.data s.data

/-- The eviction window `24 * 60 * 60 * 1000` milliseconds, from `trackSearch`. -/
def msPerDay : Int := 86400000

/-- An opaque JSON value the server stores but never inspects
(conversation `settings`, CRM `details`), carried as serialized text. -/
structure JsonBlob where
  raw : String
deriving DecidableEq

/-- The JSON value `{}` (used as the `contextMemory` and `settings`
defaults in `createConversation`). -/
def emptyBlob : JsonBlob := ⟨"\x7b\x7d"⟩

/-- A message attachment (`payload.attachment`); the server reads only
its mime `type` and stores the rest opaquely. -/
structure Attachment where
  type : String
  blob : String
deriving DecidableEq

/-- The context-memory object produced by `updateConversationContext`:
`{ summary }`. -/
structure CtxMem where
  summary : String
deriving DecidableEq

/-- A `Conversation` record (shared/schema.ts `conversations` +
`MemStorage.createConversation`).  `contextMemory` starts as `{}`
(modelled `none`) and is only ever replaced by a `{ summary }` object. -/
structure Conversation where
  id : Nat
  customerId : String
  status : String
  language : String
  summary : Option String
  contextMemory : Option CtxMem
  settings : JsonBlob
deriving DecidableEq

/-- A `Message` record (shared/schema.ts `messages` +
`MemStorage.createMessage`).  The timestamp is epoch milliseconds. -/
structure Message where
  id : Nat
  conversationId : Nat
  content : String
  role : String
  timestamp : Int
  attachment : Option Attachment
  language : String
  sentiment : Option String
  suggestions : Option (List String)
  needsHumanReview : Bool
deriving DecidableEq

/-- A `FAQ` record (shared/schema.ts `faqs` + `MemStorage.createFAQ`). -/
structure FAQ where
  id : Nat
  question : String
  answer : String
  enabled : Bool
  language : Option String
  category : Option String
deriving DecidableEq

/-- A `CrmData` record (shared/schema.ts `mockCrmData` +
`MemStorage.createCrmData`). -/
structure CrmData where
  id : Nat
  customerId : String
  name : String
  email : String
  details : JsonBlob
  preferredLanguage : String
deriving DecidableEq

/-- An ephemeral `PopularSearch` entry (server/storage.ts). -/
structure PopularSearch where
  query : String
  count : Nat
  timestamp : Int
deriving DecidableEq

/-- Embeds `InsertConversation` (fields accepted by `createConversation`). -/
structure InsertConversation where
  customerId : String
  status : Option String
  language : Option String
  settings : Option JsonBlob
deriving DecidableEq

/-- Embeds `InsertMessage` (fields accepted by `createMessage`; the
`timestamp` a caller may pass is always overwritten by the store, so it
is not carried). -/
structure InsertMessage where
  conversationId : Nat
  content : String
  role : String
  language : Option String
  attachment : Option Attachment
  suggestions : Option (List String)
  needsHumanReview : Option Bool
deriving DecidableEq

/-- Embeds `InsertFAQ`: exactly the fields `insertFaqSchema` picks
(`question`, `answer`, `language`, `category`) — in particular the
`enabled` column is excluded from the insert schema. -/
structure InsertFAQ where
  question : String
  answer : String
  language : Option String
  category : Option String
deriving DecidableEq

/-- Embeds `InsertCrmData` (fields accepted by `createCrmData`). -/
structure InsertCrmData where
  customerId : String
  name : String
  email : String
  details : JsonBlob
  preferredLanguage : Option String
deriving DecidableEq

/-- Models `Partial<Conversation>` as used by callers of `updateConversation`:
an outer `Option` marks a field as present in the update object.
`summary` and `contextMemory` are nullable columns, hence doubly
optional.  No caller ever places `id` in the partial, so it is not
carried. -/
structure ConversationPatch where
  customerId : Option String
  status : Option String
  language : Option String
  summary : Option (Option String)
  contextMemory : Option (Option CtxMem)
  settings : Option JsonBlob
deriving DecidableEq

/-- The empty `Partial<Conversation>` (`{}`). -/
def emptyConversationPatch : ConversationPatch :=
  ⟨none, none, none, none, none, none⟩

/-- Models `Partial<InsertFAQ>` as produced by `insertFaqSchema.partial()`:
only `question`, `answer`, `language`, `category` can occur — never
`enabled` (unknown keys are stripped by the schema). -/
structure FAQPatch where
  question : Option String
  answer : Option String
  language : Option (Option String)
  category : Option (Option String)
deriving DecidableEq

/-- The empty `Partial<InsertFAQ>` (`{}`). -/
def emptyFAQPatch : FAQPatch := ⟨none, none, none, none⟩

/-- The spread `{...conversation, ...data}`: fields present in the partial win. -/
def mergeConversation (c : Conversation) (p : ConversationPatch) : Conversation :=
  { id := c.id
    customerId := p.customerId.getD c.customerId
    status := p.status.getD c.status
    language := p.language.getD c.language
    summary := p.summary.getD c.summary
    contextMemory := p.contextMemory.getD c.contextMemory
    settings := p.settings.getD c.settings }

/-- The spread `{...faq, ...data}`: fields present in the partial win; `id` and
`enabled` cannot occur in the partial and are kept. -/
def mergeFAQ (f : FAQ) (p : FAQPatch) : FAQ :=
  { id := f.id
    question := p.question.getD f.question
    answer := p.answer.getD f.answer
    enabled := f.enabled
    language := p.language.getD f.language
    category := p.category.getD f.category }

/-! ### Insertion-ordered maps

A JavaScript `Map` iterates in insertion order; `set` on an existing
key updates the value in place (keeping the position), otherwise it
appends; `delete` removes the entry.  We model a map as an association
list in iteration order. -/

/-- Embeds `Map.prototype.get`. -/
def mapGet {κ : Type} [DecidableEq κ] {V : Type} (l : List (κ × V)) (k : κ) : Option V :=
  match l with
  | [] => none
  | (k', v') :: rest => if k' = k then some v' else mapGet rest k

/-- Embeds `Map.prototype.set`: replace in place when the key is present,
append otherwise. -/
def mapSet {κ : Type} [DecidableEq κ] {V : Type} (l : List (κ × V)) (k : κ) (v : V) : List (κ × V) :=
  match l with
  | [] => [(k, v)]
  | (k', v') :: rest => if k' = k then (k, v) :: rest else (k', v') :: mapSet rest k v

/-- Embeds `Map.prototype.delete` (the result is the updated map). -/
def mapDelete {κ : Type} [DecidableEq κ] {V : Type} (l : List (κ × V)) (k : κ) : List (κ × V) :=
  l.filter (fun kv => kv.1 ≠ k)

/-! ### The store (`class MemStorage`) -/

/-- The `currentIds` counter record of `MemStorage`. -/
structure CurrentIds where
  conversation : Nat
  message : Nat
  faq : Nat
  crm : Nat
deriving DecidableEq

/-- The state of a `MemStorage` instance. -/
structure MemStorage where
  conversations : List (Nat × Conversation)
  messages : List (Nat × Message)
  faqs : List (Nat × FAQ)
  crmData : List (String × CrmData)
  popularSearches : List PopularSearch
  currentIds : CurrentIds
deriving DecidableEq

/-- The state produced by `new MemStorage()` (before module-level
seeding). -/
def emptyStorage : MemStorage :=
  { conversations := []
    messages := []
    faqs := []
    crmData := []
    popularSearches := []
    currentIds := ⟨1, 1, 1, 1⟩ }

/-- Embeds `MemStorage.createConversation`. -/
def createConversation (st : MemStorage) (data : InsertConversation) :
    Conversation × MemStorage :=
  let id := st.currentIds.conversation
  let c : Conversation :=
    { id := id
      customerId := data.customerId
      status := jsOrStr data.status "active"
      language := jsOrStr data.language "en"
      summary := none
      contextMemory := none
      settings := data.settings.getD emptyBlob }
  (c, { st with
         conversations := mapSet st.conversations id c
         currentIds := { st.currentIds with conversation := id + 1 } })

/-- Embeds `MemStorage.getConversation`. -/
def getConversation (st : MemStorage) (id : Nat) : Option Conversation :=
  mapGet st.conversations id

/-- Embeds `MemStorage.updateConversation`.  The thrown `Error` becomes the
`Except.error` branch; the store component is always returned (a thrown
exception leaves `this.conversations` as it was). -/
def updateConversation (st : MemStorage) (id : Nat) (data : ConversationPatch) :
    Except String Conversation × MemStorage :=
  match mapGet st.conversations id with
  | none => (Except.error "Conversation not found", st)
  | some c =>
    let updated := mergeConversation c data
    (Except.ok updated, { st with conversations := mapSet st.conversations id updated })

/-- Embeds `MemStorage.createMessage` (`now` is the value of `new Date()` at
persist time, in epoch milliseconds). -/
def createMessage (st : MemStorage) (data : InsertMessage) (now : Int) :
    Message × MemStorage :=
  let id := st.currentIds.message
  let m : Message :=
    { id := id
      conversationId := data.conversationId
      content := data.content
      role := data.role
      timestamp := now
      language := jsOrStr data.language "en"
      sentiment := none
      attachment := data.attachment
      suggestions := data.suggestions
      needsHumanReview := data.needsHumanReview.getD false }
  (m, { st with
         messages := mapSet st.messages id m
         currentIds := { st.currentIds with message := id + 1 } })

/-- Embeds `MemStorage.getMessages`: the values in map iteration order,
filtered by conversation. -/
def getMessages (st : MemStorage) (conversationId : Nat) : List Message :=
  (st.messages.map Prod.snd).filter (fun m => m.conversationId = conversationId)

/-- Embeds `MemStorage.createFAQ`: note `enabled` is forced to `true`. -/
def createFAQ (st : MemStorage) (data : InsertFAQ) : FAQ × MemStorage :=
  let id := st.currentIds.faq
  let f : FAQ :=
    { id := id
      question := data.question
      answer := data.answer
      enabled := true
      language := some (jsOrStr data.language "en")
      category := jsOrNull data.category }
  (f, { st with
         faqs := mapSet st.faqs id f
         currentIds := { st.currentIds with faq := id + 1 } })

/-- Embeds `MemStorage.getFAQs`: an absent (or falsy, i.e. empty) language
argument returns everything; otherwise FAQs whose own language is
falsy or equal to the requested one. -/
def getFAQs (st : MemStorage) (language : Option String) : List FAQ :=
  let vals := st.faqs.map Prod.snd
  match language with
  | none => vals
  | some l =>
    if l = "" then vals
    else vals.filter (fun f => jsStrFalsy f.language || f.language == some l)

/-- Embeds `MemStorage.updateFAQ` (thrown `Error` as `Except.error`, store
always returned). -/
def updateFAQ (st : MemStorage) (id : Nat) (data : FAQPatch) :
    Except String FAQ × MemStorage :=
  match mapGet st.faqs id with
  | none => (Except.error "FAQ not found", st)
  | some f =>
    let updated := mergeFAQ f data
    (Except.ok updated, { st with faqs := mapSet st.faqs id updated })

/-- Embeds `MemStorage.deleteFAQ`: `Map.delete` never throws, so this always
succeeds. -/
def deleteFAQ (st : MemStorage) (id : Nat) : MemStorage :=
  { st with faqs := mapDelete st.faqs id }

/-- Embeds `MemStorage.getCrmData` (keyed by customer id). -/
def getCrmData (st : MemStorage) (customerId : String) : Option CrmData :=
  mapGet st.crmData customerId

/-- Embeds `MemStorage.createCrmData` (keyed by `customerId`; `Map.set` makes
a duplicate customer id a last-write-wins update). -/
def createCrmData (st : MemStorage) (data : InsertCrmData) : CrmData × MemStorage :=
  let id := st.currentIds.crm
  let c : CrmData :=
    { id := id
      customerId := data.customerId
      name := data.name
      email := data.email
      details := data.details
      preferredLanguage := jsOrStr data.preferredLanguage "en" }
  (c, { st with
         crmData := mapSet st.crmData data.customerId c
         currentIds := { st.currentIds with crm := id + 1 } })

/-- The `.find` predicate of `trackSearch`: case-insensitive query
match. -/
def queryMatches (q : String) (s : PopularSearch) : Bool :=
  strLower s.query == strLower q

/-- The eviction predicate of `trackSearch`: keep entries from the
last 24 hours (`s.timestamp > oneDayAgo`, strictly). -/
def freshSearch (now : Int) (s : PopularSearch) : Bool :=
  decide (now - msPerDay < s.timestamp)

/-- The in-place mutation of the entry found by `.find`: bump the
count and refresh the timestamp of the first match, leaving everything
else where it is. -/
def bumpFirst (p : PopularSearch → Bool) (now : Int) :
    List PopularSearch → List PopularSearch
  | [] => []
  | s :: rest =>
    if p s then { s with count := s.count + 1, timestamp := now } :: rest
    else s :: bumpFirst p now rest

/-- Embeds `MemStorage.trackSearch` on the `popularSearches` array:
case-insensitive find, bump-or-append, then evict entries older than
24 hours. -/
def trackSearchList (ss : List PopularSearch) (query : String) (now : Int) :
    List PopularSearch :=
  let ss' :=
    match ss.find? (queryMatches query) with
    | some _ => bumpFirst (queryMatches query) now ss
    | none => ss ++ [({ query := query, count := 1, timestamp := now } : PopularSearch)]
  ss'.filter (freshSearch now)

/-- Embeds `MemStorage.trackSearch` at the store level. -/
def trackSearch (st : MemStorage) (query : String) (now : Int) : MemStorage :=
  { st with popularSearches := trackSearchList st.popularSearches query now }

/-- The comparator `(a, b) => b.count - a.count` as a relation:
`a` may precede `b` when `b.count ≤ a.count`. -/
def countGE (a b : PopularSearch) : Prop := b.count ≤ a.count

instance : DecidableRel countGE := fun a b => Nat.decLe b.count a.count

instance : IsTotal PopularSearch countGE := ⟨fun a b => (Nat.le_total a.count b.count).symm⟩

instance : IsTrans PopularSearch countGE := ⟨fun _ _ _ h h' => le_trans h' h⟩

/-- Embeds `MemStorage.getPopularSearches`: `Array.prototype.sort` is an
in-place **stable** sort, so the call both returns the ranked snapshot
and replaces the stored array with the sorted one.  A stable sort by a
total preorder has a unique result, so Mathlib's `insertionSort` is
extensionally the sort the JavaScript runtime performs. -/
def getPopularSearchesList (ss : List PopularSearch) (limit : Nat) :
    List (String × Nat) × List PopularSearch :=
  let sorted := List.insertionSort countGE ss
  ((sorted.take limit).map (fun s => (s.query, s.count)), sorted)

/-- Embeds `MemStorage.getPopularSearches` at the store level (default limit
5 at the call sites that omit it). -/
def getPopularSearches (st : MemStorage) (limit : Nat := 5) :
    List (String × Nat) × MemStorage :=
  let (out, sorted) := getPopularSearchesList st.popularSearches limit
  (out, { st with popularSearches := sorted })

/-- The module-level seeding of `export const storage = new
MemStorage()` in server/storage.ts: one mock CRM record and two FAQs. -/
def initialStorage : MemStorage :=
  let st1 := (createCrmData emptyStorage
    { customerId := "CUST001"
      name := "John Doe"
      email := "john@example.com"
      details := ⟨"\x7b plan: Premium, signupDate: 2024-01-15, lastPurchase: 2024-03-20 \x7d"⟩
      preferredLanguage := some "en" }).2
  let st2 := (createFAQ st1
    { question := "How do I reset my password?"
      answer := "You can reset your password by clicking the \x27Forgot Password\x27 link on the login page and following the instructions sent to your email."
      language := some "en"
      category := some "account" }).2
  (createFAQ st2
    { question := "What payment methods do you accept?"
      answer := "We accept all major credit cards (Visa, MasterCard, American Express), PayPal, and bank transfers."
      language := some "en"
      category := some "billing" }).2

/-! ### The completion gateway (`server/lib/openai.ts`)

Each call to the hosted chat-completion endpoint during one request is
abstracted by an oracle field recording its outcome.  Errors carry the
JavaScript `Error` message (which the handlers forward to clients). -/

/-- One `{ role, content }` element of the history passed to
`generateResponse`. -/
structure ChatMsg where
  role : String
  content : String
deriving DecidableEq

/-- The JSON object the FAQ-matcher prompt asks for:
`{matches, answer, confidence, suggestions, needsHumanReview}`
(`matches` is a Lean keyword, so the field is `matchesFlag`).
Fields the model may omit are optional; an absent `confidence`
compares as falsy (`undefined > 0.8` is `false`), an absent
`needsHumanReview` passes through as `undefined`. -/
structure FaqResult where
  matchesFlag : Bool
  answer : String
  confidence : Option ℚ
  suggestions : Option (List String)
  needsHumanReview : Option Bool
deriving DecidableEq

/-- Outcome of the FAQ-matching completion call plus the subsequent
`JSON.parse`, all of which sit inside the same inner `try`. -/
inductive FaqStep where
  /-- The completion call threw (transport/API failure). -/
  | fail (msg : String)
  /-- The call returned `null` content; the code throws
  "Azure OpenAI returned empty response" into the inner catch. -/
  | empty
  /-- Embeds `JSON.parse(responseContent)` threw. -/
  | badJson (msg : String)
  /-- The content parsed; the shape of the parsed object. -/
  | parsed (r : FaqResult)
deriving DecidableEq

/-- Outcome of the follow-up-suggestion completion call plus
`JSON.parse(content || "[]")` — these are **not** protected by any
inner `try`.  `parsed f` means the text parsed as JSON and `f` is its
`suggestions` field when that field is a (truthy) string array;
`parsed none` also covers `null` content (parsed as `[]`). -/
inductive SuggStep where
  /-- The completion call threw. -/
  | fail (msg : String)
  /-- Embeds `JSON.parse` threw on the returned content. -/
  | badJson (msg : String)
  /-- The content parsed as JSON. -/
  | parsed (suggestions : Option (List String))
deriving DecidableEq

/-- Equality on `Except` values is decidable when it is on both
components (used by the oracle record). -/
instance {e a : Type} [DecidableEq e] [DecidableEq a] : DecidableEq (Except e a) := fun x y =>
  match x, y with
  | Except.error u, Except.error v =>
    if h : u = v then isTrue (congrArg Except.error h)
    else isFalse (fun hh => h (Except.error.inj hh))
  | Except.ok u, Except.ok v =>
    if h : u = v then isTrue (congrArg Except.ok h)
    else isFalse (fun hh => h (Except.ok.inj hh))
  | Except.error _, Except.ok _ => isFalse (fun hh => Except.noConfusion hh)
  | Except.ok _, Except.error _ => isFalse (fun hh => Except.noConfusion hh)

/-- The oracle: outcomes of the external calls one inbound event can
make.  `Except.ok none` models a successful call whose message content
is `null`. -/
structure GenEnv where
  detectCall : Except String (Option String)
  faqStep : FaqStep
  chatCall : Except String (Option String)
  suggStep : SuggStep
  summarizeCall : Except String (Option String)
deriving DecidableEq

/-- Embeds `detectLanguage`: trims and lowercases the model output; any
failure or falsy content falls back to "en". -/
def detectLanguage (env : GenEnv) : String :=
  match env.detectCall with
  | Except.error _ => "en"
  | Except.ok none => "en"
  | Except.ok (some s) =>
    let t := strLower (strTrim s)
    if t = "" then "en" else t

/-- Embeds `summarizeConversation`: any failure degrades to `""`; `null`
content degrades to `""` via `|| ""`. -/
def summarizeConversation (env : GenEnv) : String :=
  match env.summarizeCall with
  | Except.error _ => ""
  | Except.ok c => c.getD ""

/-- Embeds `updateConversationContext`: wraps the summary in `{ summary }`. -/
def updateConversationContext (env : GenEnv) : CtxMem :=
  ⟨summarizeConversation env⟩

/-- The acceptance test `result.confidence > 0.8` (an absent field is
`undefined`, and `undefined > 0.8` is `false`). -/
def confOk (c : Option ℚ) : Bool :=
  match c with
  | some q => decide (mkRat 4 5 < q)
  | none => false

/-- The guard `result.matches && result.confidence > 0.8`, lifted to
the whole FAQ step: any failed step is not accepted. -/
def faqGuard : FaqStep → Bool
  | FaqStep.parsed r => r.matchesFlag && confOk r.confidence
  | _ => false

/-- The `ChatResponse` interface of server/lib/openai.ts (optional
fields are `Option`s; `sentiment` is never set). -/
structure ChatResponse where
  content : String
  source : Option String
  confidence : Option ℚ
  language : Option String
  suggestions : Option (List String)
  needsHumanReview : Option Bool
  sentiment : Option String
deriving DecidableEq

/-- The tail of `generateResponse` after the FAQ block: the main chat
completion, then the suggestion completion; empty chat content throws,
a failing suggestion call or unparsable suggestion payload throws, and
the outer catch rethrows every one of these.  The heuristic review
flag is `responseContent.toLowerCase().includes("human")`. -/
def fullGeneration (env : GenEnv) (detectedLanguage : String) :
    Except String ChatResponse :=
  match env.chatCall with
  | Except.error m => Except.error m
  | Except.ok none => Except.error "Azure OpenAI returned empty response"
  | Except.ok (some responseContent) =>
    match env.suggStep with
    | SuggStep.fail m => Except.error m
    | SuggStep.badJson m => Except.error m
    | SuggStep.parsed f =>
      Except.ok
        { content := responseContent
          source := some "ai"
          confidence := none
          language := some detectedLanguage
          suggestions := some (f.getD [])
          needsHumanReview := some (jsIncludes (strLower responseContent) "human")
          sentiment := none }

/-- Embeds `generateResponse` (server/lib/openai.ts, lines 152-277).
`messages[messages.length - 1]` on an empty history throws a
`TypeError` which the outer catch rethrows.  The FAQ-matching block
runs only when the last history entry is a user message; its inner
`try` swallows every failure of the FAQ step, and the step's result is
used only through the acceptance guard.  The `faqs` and
`contextMemory` arguments shape only the prompts sent to the external
service, which the oracle abstracts. -/
def generateResponse (env : GenEnv) (messages : List ChatMsg)
    (faqs : List FAQ) (contextMemory : Option CtxMem)
    (language : String := "en") : Except String ChatResponse :=
  match messages.getLast? with
  | none => Except.error "Cannot read properties of undefined"
  | some last =>
    let detectedLanguage := detectLanguage env
    if last.role = "user" then
      match env.faqStep with
      | FaqStep.parsed r =>
        if r.matchesFlag && confOk r.confidence then
          Except.ok
            { content := r.answer
              source := some "faq"
              confidence := r.confidence
              language := some detectedLanguage
              suggestions := r.suggestions
              needsHumanReview := r.needsHumanReview
              sentiment := none }
        else fullGeneration env detectedLanguage
      | _ => fullGeneration env detectedLanguage
    else fullGeneration env detectedLanguage

/-! ### The session protocol handler (`server/routes.ts`) -/

/-- The per-connection closure state of the WebSocket handler:
`conversationId` (null until a session starts) and the latest
`contextMemory`. -/
structure ConnState where
  conversationId : Option Nat
  contextMemory : Option CtxMem
deriving DecidableEq

/-- The payload of an inbound `message` event. -/
structure MsgPayload where
  content : Option String
  attachment : Option Attachment
deriving DecidableEq

/-- Outbound WebSocket events (`ws.send` payloads) relevant to the
`message` case.  The `message` event optionally carries the reply
metadata the assistant path attaches. -/
inductive OutEvent where
  | message (m : Message) (source : Option String) (confidence : Option ℚ)
      (suggestions : Option (List String)) (needsHumanReview : Option Bool)
  | typing
  | stopTyping
  | error (message : String)
deriving DecidableEq

/-- The inbound text after appending the attachment annotations:
`payload.content || ""` plus the image/PDF markers. -/
def inboundContent (payload : MsgPayload) : String :=
  let content := jsOrStr payload.content ""
  match payload.attachment with
  | none => content
  | some a =>
    if jsStartsWith a.type "image/" then content ++ "\n[Image attached]"
    else if a.type = "application/pdf" then content ++ "\n[PDF document attached]"
    else content

/-- The `InsertMessage` the handler persists for the inbound user
message (the parsed `messageData` spread together with the
attachment). -/
def inboundInsert (payload : MsgPayload) (conversationId : Nat) : InsertMessage :=
  { conversationId := conversationId
    content := inboundContent payload
    role := "user"
    language := none
    attachment := payload.attachment
    suggestions := none
    needsHumanReview := none }

/-- The `case "message"` branch of the WebSocket dispatcher
(server/routes.ts, lines 201-291).  Returns the store, the connection
state and the ordered list of events sent on the socket.  Every
exception inside the branch is converted by `handleWebSocketError`
into a single `error` event carrying the exception's message. -/
def handleMessageEvent (st : MemStorage) (conn : ConnState)
    (payload : MsgPayload) (env : GenEnv) (now : Int) :
    MemStorage × ConnState × List OutEvent :=
  match conn.conversationId with
  | none => (st, conn, [OutEvent.error "No active conversation"])
  | some conversationId =>
    let created := createMessage st (inboundInsert payload conversationId) now
    let userMessage := created.1
    let st1 := created.2
    let sent := [OutEvent.message userMessage none none none none, OutEvent.typing]
    let history := getMessages st1 conversationId
    let faqs := getFAQs st1 none
    let contextMemory := updateConversationContext env
    let conn1 : ConnState := { conn with contextMemory := some contextMemory }
    match generateResponse env
        (history.map (fun m => { role := m.role, content := m.content }))
        faqs (some contextMemory) userMessage.language with
    | Except.error e => (st1, conn1, sent ++ [OutEvent.error e])
    | Except.ok response =>
      let created2 := createMessage st1
        { conversationId := conversationId
          content := response.content
          role := "assistant"
          language := response.language
          attachment := none
          suggestions := response.suggestions
          needsHumanReview := response.needsHumanReview } now
      let updated := updateConversation created2.2 conversationId
        { emptyConversationPatch with
            summary := some (some contextMemory.summary)
            contextMemory := some (some contextMemory) }
      match updated.1 with
      | Except.error e => (updated.2, conn1, sent ++ [OutEvent.error e])
      | Except.ok _ =>
        (updated.2, conn1,
          sent ++ [OutEvent.message created2.1 response.source response.confidence
                     response.suggestions response.needsHumanReview])

/-! ### HTTP handlers (`server/routes.ts`)

Requests are modelled after input decoding: a `none` id stands for a
route parameter `z.number()` rejects (e.g. `parseInt` produced `NaN`),
a `none` body for a request body the zod schema rejects.  The numeric
result is the HTTP status code sent (response JSON bodies carry no
further state and are elided). -/

/-- Embeds `PATCH /api/faqs/:id`: any thrown error — including the store's
"FAQ not found" — is answered with status 400. -/
def patchFaqHandler (st : MemStorage) (idParam : Option Nat)
    (body : Option FAQPatch) : Nat × MemStorage :=
  match idParam with
  | none => (400, st)
  | some id =>
    match body with
    | none => (400, st)
    | some data =>
      match updateFAQ st id data with
      | (Except.error _, st') => (400, st')
      | (Except.ok _, st') => (200, st')

/-- Embeds `DELETE /api/faqs/:id`: `deleteFAQ` cannot throw, so a valid id —
present in the store or not — is answered with status 204. -/
def deleteFaqHandler (st : MemStorage) (idParam : Option Nat) : Nat × MemStorage :=
  match idParam with
  | none => (400, st)
  | some id => (204, deleteFAQ st id)

/-- Embeds `GET /api/crm/:customerId`: 404 on a missing record. -/
def crmGetHandler (st : MemStorage) (customerId : String) : Nat × MemStorage :=
  match getCrmData st customerId with
  | none => (404, st)
  | some _ => (200, st)

/-! ### Reachable store states

Every mutation of the store reachable from the HTTP API or the
WebSocket dispatcher goes through one of these operations; the insert
and patch payloads carry exactly the fields the zod schemas admit (in
particular no FAQ payload carries `enabled`). -/

/-- One public store mutation. -/
inductive StoreOp where
  | createConv (d : InsertConversation)
  | updateConv (id : Nat) (p : ConversationPatch)
  | createMsg (d : InsertMessage) (now : Int)
  | createFaq (d : InsertFAQ)
  | updateFaq (id : Nat) (p : FAQPatch)
  | delFaq (id : Nat)
  | createCrm (d : InsertCrmData)
  | track (q : String) (now : Int)
  | popular (limit : Nat)
deriving DecidableEq

/-- Apply one operation to the store (results are discarded; only the
state evolution matters here). -/
def applyOp (st : MemStorage) : StoreOp → MemStorage
  | StoreOp.createConv d => (createConversation st d).2
  | StoreOp.updateConv id p => (updateConversation st id p).2
  | StoreOp.createMsg d now => (createMessage st d now).2
  | StoreOp.createFaq d => (createFAQ st d).2
  | StoreOp.updateFaq id p => (updateFAQ st id p).2
  | StoreOp.delFaq id => deleteFAQ st id
  | StoreOp.createCrm d => (createCrmData st d).2
  | StoreOp.track q now => trackSearch st q now
  | StoreOp.popular limit => (getPopularSearches st limit).2

/-- The store after a sequence of public operations, starting from the
seeded module-level singleton. -/
def applyOps (ops : List StoreOp) : MemStorage :=
  ops.foldl applyOp initialStorage

/-! ### Map lemmas -/

theorem mapSet_of_get_none {κ V : Type} [DecidableEq κ] {l : List (κ × V)} {k : κ} (v : V)
    (h : mapGet l k = none) : mapSet l k v = l ++ [(k, v)] := by
  induction l with
  | nil => rfl
  | cons kv rest ih =>
    obtain ⟨k', v'⟩ := kv
    by_cases hk : k' = k
    · simp [mapGet, hk] at h
    · simp only [mapGet, hk, if_false] at h
      simp [mapSet, hk, ih h]

theorem mem_mapSet {κ V : Type} [DecidableEq κ] {l : List (κ × V)} {k : κ} {v : V} {p : κ × V}
    (h : p ∈ mapSet l k v) : p = (k, v) ∨ p ∈ l := by
  induction l with
  | nil => simpa [mapSet] using h
  | cons kv rest ih =>
    obtain ⟨k', v'⟩ := kv
    by_cases hk : k' = k
    · simp only [mapSet, hk, if_true] at h
      rcases List.mem_cons.mp h with h | h
      · exact Or.inl h
      · exact Or.inr (List.mem_cons_of_mem _ h)
    · simp only [mapSet, hk, if_false] at h
      rcases List.mem_cons.mp h with h | h
      · exact Or.inr (h ▸ List.mem_cons_self _ _)
      · rcases ih h with h | h
        · exact Or.inl h
        · exact Or.inr (List.mem_cons_of_mem _ h)

theorem mapGet_mem {κ V : Type} [DecidableEq κ] {l : List (κ × V)} {k : κ} {v : V}
    (h : mapGet l k = some v) : (k, v) ∈ l := by
  induction l with
  | nil => simp [mapGet] at h
  | cons kv rest ih =>
    obtain ⟨k', v'⟩ := kv
    by_cases hk : k' = k
    · simp only [mapGet, hk, if_true, Option.some.injEq] at h
      subst hk; subst h; exact List.mem_cons_self _ _
    · simp only [mapGet, hk, if_false] at h
      exact List.mem_cons_of_mem _ (ih h)

theorem mapDelete_of_get_none {κ V : Type} [DecidableEq κ] {l : List (κ × V)} {k : κ}
    (h : mapGet l k = none) : mapDelete l k = l := by
  induction l with
  | nil => rfl
  | cons kv rest ih =>
    obtain ⟨k', v'⟩ := kv
    by_cases hk : k' = k
    · simp [mapGet, hk] at h
    · simp only [mapGet, hk, if_false] at h
      simp [mapDelete, hk, List.filter] at ih ⊢
      exact ih h

theorem mapDelete_idem {κ V : Type} [DecidableEq κ] (l : List (κ × V)) (k : κ) :
    mapDelete (mapDelete l k) k = mapDelete l k := by
  simp [mapDelete, List.filter_filter]

/-! ### C1: a `message` event on an unbound channel -/

/-- C1: on a channel with no active conversation, a `message` inbound
event produces exactly one outbound event — an `error` carrying the
"No active conversation" message — and leaves the store (in particular
its message map) and the connection state completely unchanged. -/
theorem unbound_message_single_error (st : MemStorage) (conn : ConnState)
    (payload : MsgPayload) (env : GenEnv) (now : Int)
    (hu : conn.conversationId = none) :
    handleMessageEvent st conn payload env now =
      (st, conn, [OutEvent.error "No active conversation"]) := by
  unfold handleMessageEvent
  rw [hu]

/-- A fixed oracle used by concrete witnesses. -/
def probeEnv : GenEnv :=
  { detectCall := Except.ok none
    faqStep := FaqStep.fail "matching failed"
    chatCall := Except.ok (some "Happy to help.")
    suggStep := SuggStep.parsed none
    summarizeCall := Except.ok (some "a summary") }

/-- Witness for C1: the seeded store, a fresh unbound channel. -/
theorem unbound_message_single_error_witness :
    handleMessageEvent initialStorage ⟨none, none⟩ ⟨some "hi", none⟩ probeEnv 0 =
      (initialStorage, ⟨none, none⟩, [OutEvent.error "No active conversation"]) :=
  unbound_message_single_error initialStorage ⟨none, none⟩ ⟨some "hi", none⟩ probeEnv 0 rfl

/-! ### C4: update on unknown / known ids -/

/-- C4: `updateConversation` and `updateFAQ` on an id absent from the
respective map fail with the NotFound error and return the store
with every map untouched; on a present id they merge the partial into
the existing record (patched fields win, absent fields keep their
stored value) and return the merged record, which replaces the old one
in place. -/
theorem update_missing_id_notfound_merge (st : MemStorage) (cid fid : Nat)
    (pc : ConversationPatch) (pf : FAQPatch) :
    (mapGet st.conversations cid = none →
       updateConversation st cid pc = (Except.error "Conversation not found", st))
  ∧ (∀ c, mapGet st.conversations cid = some c →
       updateConversation st cid pc =
         (Except.ok (mergeConversation c pc),
          { st with conversations := mapSet st.conversations cid (mergeConversation c pc) }))
  ∧ (mapGet st.faqs fid = none →
       updateFAQ st fid pf = (Except.error "FAQ not found", st))
  ∧ (∀ f, mapGet st.faqs fid = some f →
       updateFAQ st fid pf =
         (Except.ok (mergeFAQ f pf),
          { st with faqs := mapSet st.faqs fid (mergeFAQ f pf) }))
  ∧ (∀ c, pc.summary = none → (mergeConversation c pc).summary = c.summary)
  ∧ (∀ c s, pc.summary = some s → (mergeConversation c pc).summary = s)
  ∧ (∀ f, pf.answer = none → (mergeFAQ f pf).answer = f.answer)
  ∧ (∀ f a, pf.answer = some a → (mergeFAQ f pf).answer = a) := by
  refine ⟨?_, ?_, ?_, ?_, ?_, ?_, ?_, ?_⟩
  · intro h; simp [updateConversation, h]
  · intro c h; simp [updateConversation, h]
  · intro h; simp [updateFAQ, h]
  · intro f h; simp [updateFAQ, h]
  · intro c h; simp [mergeConversation, h]
  · intro c s h; simp [mergeConversation, h]
  · intro f h; simp [mergeFAQ, h]
  · intro f a h; simp [mergeFAQ, h]

/-- The first seeded FAQ record, spelled out. -/
def seededFaq1 : FAQ :=
  { id := 1
    question := "How do I reset my password?"
    answer := "You can reset your password by clicking the \x27Forgot Password\x27 link on the login page and following the instructions sent to your email."
    enabled := true
    language := some "en"
    category := some "account" }

/-- Witness for C4: conversation id 5 is absent from the seeded store,
FAQ id 1 is present. -/
theorem update_missing_id_notfound_merge_witness :
    updateConversation initialStorage 5 emptyConversationPatch =
      (Except.error "Conversation not found", initialStorage)
  ∧ updateFAQ initialStorage 1 ⟨none, some "New answer", none, none⟩ =
      (Except.ok (mergeFAQ seededFaq1 ⟨none, some "New answer", none, none⟩),
       { initialStorage with
           faqs := mapSet initialStorage.faqs 1
             (mergeFAQ seededFaq1 ⟨none, some "New answer", none, none⟩) }) :=
  ⟨(update_missing_id_notfound_merge initialStorage 5 1 emptyConversationPatch
      ⟨none, some "New answer", none, none⟩).1 (by decide),
   (update_missing_id_notfound_merge initialStorage 5 1 emptyConversationPatch
      ⟨none, some "New answer", none, none⟩).2.2.2.1 seededFaq1 (by decide)⟩

/-! ### C7: HTTP error mapping for FAQ and CRM ids -/

/-- C7 counterexample: `DELETE /api/faqs/999` on the seeded store —
999 names no FAQ — answers **204**, not a 400-class validation error:
`deleteFAQ` never raises NotFound, so there is nothing for the handler
to map to 400.  (The 400 mapping is real only for PATCH.) -/
theorem delete_unknown_faq_204_cex :
    mapGet initialStorage.faqs 999 = none
  ∧ (deleteFaqHandler initialStorage (some 999)).1 = 204
  ∧ ¬(400 ≤ (deleteFaqHandler initialStorage (some 999)).1
       ∧ (deleteFaqHandler initialStorage (some 999)).1 < 500) :=
  ⟨by decide, by decide, by decide⟩

/-- C7 (amended): for an id absent from the FAQ map, PATCH answers 400
(the store's NotFound surfaces as a validation error) with the store
unchanged, while DELETE answers 204; DELETE is idempotent at both the
handler and the store level (a second delete of the same id also
answers 204 and changes nothing); an unknown CRM customer id answers
404. -/
theorem faq_http_error_mapping (st : MemStorage) (id : Nat) (body : FAQPatch)
    (cust : String) :
    (mapGet st.faqs id = none →
       patchFaqHandler st (some id) (some body) = (400, st))
  ∧ (mapGet st.faqs id = none → deleteFaqHandler st (some id) = (204, st))
  ∧ deleteFaqHandler ((deleteFaqHandler st (some id)).2) (some id) =
      (204, (deleteFaqHandler st (some id)).2)
  ∧ deleteFAQ (deleteFAQ st id) id = deleteFAQ st id
  ∧ (mapGet st.crmData cust = none → crmGetHandler st cust = (404, st)) := by
  refine ⟨?_, ?_, ?_, ?_, ?_⟩
  · intro h; simp [patchFaqHandler, updateFAQ, h]
  · intro h
    simp only [deleteFaqHandler, deleteFAQ, mapDelete_of_get_none h]
  · simp only [deleteFaqHandler, deleteFAQ, mapDelete_idem]
  · simp only [deleteFAQ, mapDelete_idem]
  · intro h; simp [crmGetHandler, getCrmData, h]

/-- Witness for C7: id 999 and customer "NOPE" are absent from the
seeded store. -/
theorem faq_http_error_mapping_witness :
    patchFaqHandler initialStorage (some 999) (some emptyFAQPatch) = (400, initialStorage)
  ∧ deleteFaqHandler initialStorage (some 999) = (204, initialStorage)
  ∧ crmGetHandler initialStorage "NOPE" = (404, initialStorage) :=
  ⟨(faq_http_error_mapping initialStorage 999 emptyFAQPatch "NOPE").1 (by decide),
   (faq_http_error_mapping initialStorage 999 emptyFAQPatch "NOPE").2.1 (by decide),
   (faq_http_error_mapping initialStorage 999 emptyFAQPatch "NOPE").2.2.2.2 (by decide)⟩

/-! ### C10: every FAQ in any reachable store is enabled -/

/-- Every FAQ entry of the store has `enabled = true`. -/
def faqsAllEnabled (st : MemStorage) : Prop :=
  ∀ p ∈ st.faqs, p.2.enabled = true

theorem faqsAllEnabled_initial : faqsAllEnabled initialStorage := by
  unfold faqsAllEnabled
  decide

theorem applyOp_faqs_enabled {st : MemStorage} (op : StoreOp)
    (h : faqsAllEnabled st) : faqsAllEnabled (applyOp st op) := by
  cases op with
  | createConv d => exact h
  | createMsg d now => exact h
  | createCrm d => exact h
  | track q now => exact h
  | popular limit => exact h
  | updateConv id p =>
    intro q hq
    have : (applyOp st (StoreOp.updateConv id p)).faqs = st.faqs := by
      simp only [applyOp, updateConversation]
      cases mapGet st.conversations id <;> rfl
    rw [this] at hq
    exact h q hq
  | createFaq d =>
    intro q hq
    simp only [applyOp, createFAQ] at hq
    rcases mem_mapSet hq with hq | hq
    · subst hq; rfl
    · exact h q hq
  | updateFaq id p =>
    intro q hq
    simp only [applyOp, updateFAQ] at hq
    cases hm : mapGet st.faqs id with
    | none => rw [hm] at hq; exact h q hq
    | some f0 =>
      rw [hm] at hq
      simp only at hq
      rcases mem_mapSet hq with hq | hq
      · have hf0 : f0.enabled = true := h (id, f0) (mapGet_mem hm)
        subst hq
        simpa [mergeFAQ] using hf0
      · exact h q hq
  | delFaq id =>
    intro q hq
    simp only [applyOp, deleteFAQ, mapDelete] at hq
    exact h q (List.mem_of_mem_filter hq)

theorem foldl_faqs_enabled (ops : List StoreOp) :
    ∀ st : MemStorage, faqsAllEnabled st → faqsAllEnabled (ops.foldl applyOp st) := by
  induction ops with
  | nil => exact fun _ hst => hst
  | cons op rest ih => exact fun st hst => ih _ (applyOp_faqs_enabled op hst)

/-- C10: in every store reachable from the seeded singleton by any
sequence of public operations, every FAQ has `enabled = true`:
`createFAQ` forces the flag, and no reachable operation can clear it —
the insert/patch payload types mirror `insertFaqSchema`
(`.pick` without `enabled`), so no HTTP body reaches the flag. -/
theorem faq_enabled_invariant (ops : List StoreOp) (id : Nat) (f : FAQ)
    (h : mapGet (applyOps ops).faqs id = some f) : f.enabled = true :=
  foldl_faqs_enabled ops initialStorage faqsAllEnabled_initial (id, f) (mapGet_mem h)

/-- Witness for C10: creating one more FAQ after the seeds yields id 3
with the flag forced on. -/
theorem faq_enabled_invariant_witness :
    (⟨3, "Q", "A", true, some "en", none⟩ : FAQ).enabled = true :=
  faq_enabled_invariant [StoreOp.createFaq ⟨"Q", "A", none, none⟩] 3
    ⟨3, "Q", "A", true, some "en", none⟩ (by decide)

/-! ### Gateway lemmas shared by C2, C3, C8, C9 -/

theorem fullGeneration_ok {env : GenEnv} {d : String} {r : ChatResponse}
    (h : fullGeneration env d = Except.ok r) :
    r.source = some "ai"
  ∧ r.needsHumanReview = some (jsIncludes (strLower r.content) "human")
  ∧ env.chatCall = Except.ok (some r.content)
  ∧ r.language = some d := by
  unfold fullGeneration at h
  cases hc : env.chatCall with
  | error m => rw [hc] at h; exact absurd h (by simp)
  | ok content =>
    rw [hc] at h
    cases content with
    | none => exact absurd h (by simp)
    | some c =>
      cases hs : env.suggStep with
      | fail m => rw [hs] at h; exact absurd h (by simp)
      | badJson m => rw [hs] at h; exact absurd h (by simp)
      | parsed f =>
        rw [hs] at h
        simp only [Except.ok.injEq] at h
        subst h
        exact ⟨rfl, rfl, rfl, rfl⟩

theorem generateResponse_not_accepted (env : GenEnv) (msgs : List ChatMsg)
    (faqs : List FAQ) (ctx : Option CtxMem) (lang : String) (last : ChatMsg)
    (hl : msgs.getLast? = some last) (hg : faqGuard env.faqStep = false) :
    generateResponse env msgs faqs ctx lang = fullGeneration env (detectLanguage env) := by
  unfold generateResponse
  rw [hl]
  by_cases hr : last.role = "user"
  · simp only [hr, if_true]
    cases hfs : env.faqStep with
    | parsed r =>
      rw [hfs] at hg
      simp only [faqGuard] at hg
      simp [hg]
    | fail m => rfl
    | empty => rfl
    | badJson m => rfl
  · simp [hr]

theorem generateResponse_accepted (env : GenEnv) (msgs : List ChatMsg)
    (faqs : List FAQ) (ctx : Option CtxMem) (lang : String) (last : ChatMsg)
    (r : FaqResult) (hl : msgs.getLast? = some last) (hr : last.role = "user")
    (hf : env.faqStep = FaqStep.parsed r)
    (hg : (r.matchesFlag && confOk r.confidence) = true) :
    generateResponse env msgs faqs ctx lang =
      Except.ok
        { content := r.answer
          source := some "faq"
          confidence := r.confidence
          language := some (detectLanguage env)
          suggestions := r.suggestions
          needsHumanReview := r.needsHumanReview
          sentiment := none } := by
  unfold generateResponse
  rw [hl]
  simp [hr, hf, hg]

/-! ### C2: FAQ acceptance guard -/

/-- C2: `generateResponse` (on a history whose last entry is a user
message) returns an FAQ-sourced answer exactly when the FAQ-match step
parsed to an object with a true match flag and confidence strictly
above 0.8; in every other case — match flag false, confidence at most
0.8 or absent, or any failure of the FAQ step (transport error, empty
content, unparsable JSON) — the step's outcome is discarded and the
result is exactly that of full free-form generation. -/
theorem faq_acceptance_iff (env : GenEnv) (msgs : List ChatMsg) (faqs : List FAQ)
    (ctx : Option CtxMem) (lang : String) (last : ChatMsg)
    (hl : msgs.getLast? = some last) (hr : last.role = "user") :
    ((∃ resp, generateResponse env msgs faqs ctx lang = Except.ok resp
        ∧ resp.source = some "faq") ↔ faqGuard env.faqStep = true)
  ∧ (faqGuard env.faqStep = false →
       generateResponse env msgs faqs ctx lang = fullGeneration env (detectLanguage env))
  ∧ (∀ fs : FaqStep, faqGuard fs = true ↔
       ∃ r : FaqResult, fs = FaqStep.parsed r ∧ r.matchesFlag = true
         ∧ ∃ c : ℚ, r.confidence = some c ∧ mkRat 4 5 < c) := by
  refine ⟨⟨?_, ?_⟩, ?_, ?_⟩
  · rintro ⟨resp, hok, hsrc⟩
    cases hb : faqGuard env.faqStep with
    | true => rfl
    | false =>
      rw [generateResponse_not_accepted env msgs faqs ctx lang last hl hb] at hok
      have := (fullGeneration_ok hok).1
      rw [this] at hsrc
      exact absurd hsrc (by simp)
  · intro hg
    cases hfs : env.faqStep with
    | fail m => rw [hfs] at hg; exact absurd hg (by simp [faqGuard])
    | empty => rw [hfs] at hg; exact absurd hg (by simp [faqGuard])
    | badJson m => rw [hfs] at hg; exact absurd hg (by simp [faqGuard])
    | parsed r =>
      rw [hfs] at hg
      simp only [faqGuard] at hg
      exact ⟨_, generateResponse_accepted env msgs faqs ctx lang last r hl hr hfs hg, rfl⟩
  · intro hg
    exact generateResponse_not_accepted env msgs faqs ctx lang last hl hg
  · intro fs
    cases fs with
    | fail m => simp [faqGuard]
    | empty => simp [faqGuard]
    | badJson m => simp [faqGuard]
    | parsed r =>
      simp only [faqGuard, Bool.and_eq_true, FaqStep.parsed.injEq]
      constructor
      · rintro ⟨hm, hc⟩
        cases hcv : r.confidence with
        | none => rw [hcv] at hc; exact absurd hc (by simp [confOk])
        | some c =>
          rw [hcv] at hc
          simp only [confOk, decide_eq_true_eq] at hc
          exact ⟨r, rfl, hm, c, hcv, hc⟩
      · rintro ⟨r', hr', hm, c, hcv, hc⟩
        cases hr'
        exact ⟨hm, by simp [confOk, hcv, hc]⟩

/-- An oracle whose FAQ step matches with confidence 0.9. -/
def acceptEnv : GenEnv :=
  { detectCall := Except.ok (some "EN ")
    faqStep := FaqStep.parsed
      { matchesFlag := true
        answer := "From the FAQ."
        confidence := some (mkRat 9 10)
        suggestions := some ["More?"]
        needsHumanReview := some false }
    chatCall := Except.error "should not be consulted"
    suggStep := SuggStep.fail "should not be consulted"
    summarizeCall := Except.ok none }

/-- Witness for C2: with a matching step at confidence 0.9 the
FAQ-sourced answer is returned. -/
theorem faq_acceptance_iff_witness :
    ∃ resp, generateResponse acceptEnv [⟨"user", "hi"⟩] [] none "en" = Except.ok resp
      ∧ resp.source = some "faq" :=
  (faq_acceptance_iff acceptEnv [⟨"user", "hi"⟩] [] none "en" ⟨"user", "hi"⟩
    rfl rfl).1.mpr (by decide)

/-! ### C3: suggestion-step degradation -/

/-- An oracle whose suggestion output is not valid JSON; the FAQ step
fails (so full generation runs) and the chat step succeeds. -/
def badSuggEnv : GenEnv :=
  { detectCall := Except.ok none
    faqStep := FaqStep.fail "matching failed"
    chatCall := Except.ok (some "Sure, here is how.")
    suggStep := SuggStep.badJson "Unexpected token s in JSON at position 0"
    summarizeCall := Except.ok none }

/-- C3 counterexample: when the follow-up-suggestion output fails
`JSON.parse`, `generateResponse` does **not** return a reply with an
empty suggestion list — the parse error is rethrown by the outer catch
and the whole response fails.  (Only the FAQ-matching block has an
inner catch; the suggestion block has none.) -/
theorem sugg_parse_failure_fails_response :
    generateResponse badSuggEnv [⟨"user", "hi"⟩] [] none "en" =
      Except.error "Unexpected token s in JSON at position 0"
  ∧ (generateResponse badSuggEnv [⟨"user", "hi"⟩] [] none "en").isOk = false :=
  ⟨by decide, by decide⟩

/-- C3 (amended): when the suggestion output **parses as JSON** but
does not carry a usable `suggestions` string array (including `null`
content, parsed as `[]`), the reply still succeeds and the suggestion
list degrades to `f.getD []` — empty whenever the field is absent;
when the output is not valid JSON at all, or the suggestion call
itself fails, the error propagates and fails the whole response. -/
theorem sugg_structure_mismatch_degrades (env : GenEnv) (msgs : List ChatMsg)
    (faqs : List FAQ) (ctx : Option CtxMem) (lang : String) (last : ChatMsg)
    (c : String) (f : Option (List String))
    (hl : msgs.getLast? = some last)
    (hg : faqGuard env.faqStep = false)
    (hc : env.chatCall = Except.ok (some c))
    (hs : env.suggStep = SuggStep.parsed f) :
    generateResponse env msgs faqs ctx lang =
      Except.ok
        { content := c
          source := some "ai"
          confidence := none
          language := some (detectLanguage env)
          suggestions := some (f.getD [])
          needsHumanReview := some (jsIncludes (strLower c) "human")
          sentiment := none }
  ∧ ((env.suggStep = SuggStep.fail "net down" →
        generateResponse env msgs faqs ctx lang = Except.error "net down")) := by
  constructor
  · rw [generateResponse_not_accepted env msgs faqs ctx lang last hl hg]
    unfold fullGeneration
    rw [hc, hs]
  · intro hfail
    rw [hs] at hfail
    exact absurd hfail (by simp)

/-- An oracle whose suggestion output parses as JSON with no
`suggestions` array. -/
def noSuggEnv : GenEnv :=
  { badSuggEnv with suggStep := SuggStep.parsed none }

/-- Witness for C3 (amended): the reply succeeds with an empty
suggestion list. -/
theorem sugg_structure_mismatch_degrades_witness :
    generateResponse noSuggEnv [⟨"user", "hi"⟩] [] none "en" =
      Except.ok
        { content := "Sure, here is how."
          source := some "ai"
          confidence := none
          language := some (detectLanguage noSuggEnv)
          suggestions := some []
          needsHumanReview := some (jsIncludes (strLower "Sure, here is how.") "human")
          sentiment := none } :=
  (sugg_structure_mismatch_degrades noSuggEnv [⟨"user", "hi"⟩] [] none "en"
    ⟨"user", "hi"⟩ "Sure, here is how." none rfl (by decide) rfl rfl).1

/-! ### C8: derivation of the needs-human-review flag -/

/-- C8: every successful reply is either AI-sourced or FAQ-sourced;
on a free (AI-sourced) reply the review flag is exactly the
case-insensitive substring test for "human" on the reply text, and on
an FAQ-sourced reply it is exactly the value the FAQ-match step
returned. -/
theorem needsHumanReview_derivation (env : GenEnv) (msgs : List ChatMsg)
    (faqs : List FAQ) (ctx : Option CtxMem) (lang : String) (resp : ChatResponse)
    (h : generateResponse env msgs faqs ctx lang = Except.ok resp) :
    (resp.source = some "ai" ∨ resp.source = some "faq")
  ∧ (resp.source = some "ai" →
       resp.needsHumanReview = some (jsIncludes (strLower resp.content) "human"))
  ∧ (resp.source = some "faq" →
       ∃ r : FaqResult, env.faqStep = FaqStep.parsed r ∧ r.matchesFlag = true
         ∧ confOk r.confidence = true
         ∧ resp.needsHumanReview = r.needsHumanReview ∧ resp.content = r.answer) := by
  cases hl : msgs.getLast? with
  | none => unfold generateResponse at h; rw [hl] at h; exact absurd h (by simp)
  | some last =>
    cases hb : faqGuard env.faqStep with
    | false =>
      rw [generateResponse_not_accepted env msgs faqs ctx lang last hl hb] at h
      obtain ⟨hsrc, hrev, -, -⟩ := fullGeneration_ok h
      refine ⟨Or.inl hsrc, fun _ => hrev, fun hfaq => ?_⟩
      rw [hsrc] at hfaq
      exact absurd hfaq (by simp)
    | true =>
      cases hfs : env.faqStep with
      | fail m => rw [hfs] at hb; exact absurd hb (by simp [faqGuard])
      | empty => rw [hfs] at hb; exact absurd hb (by simp [faqGuard])
      | badJson m => rw [hfs] at hb; exact absurd hb (by simp [faqGuard])
      | parsed r =>
        rw [hfs] at hb
        simp only [faqGuard] at hb
        by_cases hr : last.role = "user"
        · rw [generateResponse_accepted env msgs faqs ctx lang last r hl hr hfs hb] at h
          simp only [Except.ok.injEq] at h
          subst h
          have hand := (Bool.and_eq_true _ _).mp hb
          refine ⟨Or.inr rfl, fun hai => ?_, fun _ => ⟨r, rfl, hand.1, hand.2, rfl, rfl⟩⟩
          exact absurd hai (by simp)
        · unfold generateResponse at h
          rw [hl] at h
          simp only [hr, if_false] at h
          obtain ⟨hsrc, hrev, -, -⟩ := fullGeneration_ok h
          refine ⟨Or.inl hsrc, fun _ => hrev, fun hfaq => ?_⟩
          rw [hsrc] at hfaq
          exact absurd hfaq (by simp)

/-- An oracle whose free reply mentions a HUMAN agent. -/
def humanEnv : GenEnv :=
  { badSuggEnv with
      chatCall := Except.ok (some "You should contact a HUMAN agent.")
      suggStep := SuggStep.parsed none }

/-- The reply `humanEnv` produces. -/
def humanResp : ChatResponse :=
  { content := "You should contact a HUMAN agent."
    source := some "ai"
    confidence := none
    language := some "en"
    suggestions := some []
    needsHumanReview := some true
    sentiment := none }

/-- Witness for C8: on the free reply above, the AI branch of the
derivation applies and the flag is the substring test (true here). -/
theorem needsHumanReview_derivation_witness :
    humanResp.needsHumanReview = some (jsIncludes (strLower humanResp.content) "human") :=
  (needsHumanReview_derivation humanEnv [⟨"user", "hi"⟩] [] none "en" humanResp
    (by decide)).2.1 rfl

/-! ### C5: trackSearch -/

theorem bumpFirst_mem {p : PopularSearch → Bool} {now : Int}
    {ss : List PopularSearch} {e₀ : PopularSearch} (h : ss.find? p = some e₀) :
    ({ e₀ with count := e₀.count + 1, timestamp := now } : PopularSearch) ∈
      bumpFirst p now ss := by
  induction ss with
  | nil => simp at h
  | cons s rest ih =>
    cases hp : p s with
    | true =>
      rw [List.find?_cons_of_pos _ hp] at h
      obtain rfl : s = e₀ := by simpa using h
      simp [bumpFirst, hp]
    | false =>
      rw [List.find?_cons_of_neg _ (by simp [hp])] at h
      simp only [bumpFirst, hp, Bool.false_eq_true, if_false]
      exact List.mem_cons_of_mem _ (ih h)

theorem trackSearchList_no_match (ss : List PopularSearch) (q : String) (now : Int)
    (h : ss.find? (queryMatches q) = none) :
    trackSearchList ss q now = ss.filter (freshSearch now) ++ [⟨q, 1, now⟩] := by
  have hfresh : freshSearch now ⟨q, 1, now⟩ = true := by
    simp only [freshSearch, decide_eq_true_eq, msPerDay]
    omega
  unfold trackSearchList
  rw [h, List.filter_append]
  simp [hfresh]

theorem trackSearchList_match (ss : List PopularSearch) (q : String) (now : Int)
    (e₀ : PopularSearch) (h : ss.find? (queryMatches q) = some e₀) :
    trackSearchList ss q now =
      (bumpFirst (queryMatches q) now ss).filter (freshSearch now) := by
  unfold trackSearchList
  rw [h]

/-- C5: `trackSearch` matches case-insensitively — on a match it bumps
the first matching entry's count by one and refreshes its timestamp in
place, otherwise it appends a fresh entry with count 1 — and in either
case the surviving entries are exactly the fresh ones (strictly newer
than 24 hours before `now`); in particular tracking "Refund" then
"refund" from an empty table leaves one entry (keeping the first
spelling) with count 2. -/
theorem trackSearch_case_insensitive_evict :
    (∀ (ss : List PopularSearch) (q : String) (now : Int) (e : PopularSearch),
       e ∈ trackSearchList ss q now → now - msPerDay < e.timestamp)
  ∧ (∀ (ss : List PopularSearch) (q : String) (now : Int),
       ss.find? (queryMatches q) = none →
       trackSearchList ss q now = ss.filter (freshSearch now) ++ [⟨q, 1, now⟩])
  ∧ (∀ (ss : List PopularSearch) (q : String) (now : Int) (e₀ : PopularSearch),
       ss.find? (queryMatches q) = some e₀ →
       trackSearchList ss q now =
         (bumpFirst (queryMatches q) now ss).filter (freshSearch now)
       ∧ (⟨e₀.query, e₀.count + 1, now⟩ : PopularSearch) ∈ trackSearchList ss q now)
  ∧ (∀ t : Int,
       trackSearchList (trackSearchList [] "Refund" t) "refund" t = [⟨"Refund", 2, t⟩]) := by
  have hfresh : ∀ (now : Int) (s : PopularSearch), s.timestamp = now →
      freshSearch now s = true := by
    intro now s hs
    simp only [freshSearch, decide_eq_true_eq, hs, msPerDay]
    omega
  refine ⟨?_, trackSearchList_no_match, ?_, ?_⟩
  · intro ss q now e he
    simp only [trackSearchList] at he
    have hf := List.of_mem_filter he
    simpa [freshSearch] using hf
  · intro ss q now e₀ h
    refine ⟨trackSearchList_match ss q now e₀ h, ?_⟩
    rw [trackSearchList_match ss q now e₀ h]
    exact List.mem_filter.mpr ⟨bumpFirst_mem h, hfresh now _ rfl⟩
  · intro t
    have hq : queryMatches "refund" (⟨"Refund", 1, t⟩ : PopularSearch) = true := by
      show (strLower "Refund" == strLower "refund") = true
      decide
    rw [trackSearchList_no_match [] "Refund" t rfl]
    simp only [List.filter_nil, List.nil_append]
    rw [trackSearchList_match [⟨"Refund", 1, t⟩] "refund" t ⟨"Refund", 1, t⟩
      (List.find?_cons_of_pos _ hq)]
    simp only [bumpFirst, if_pos hq]
    simp [List.filter, hfresh t ⟨"Refund", 2, t⟩ rfl]

/-- Witness for C5: the bumped entry is present after a
case-insensitive repeat track. -/
theorem trackSearch_case_insensitive_evict_witness :
    (⟨"Refund", 2, 5⟩ : PopularSearch) ∈ trackSearchList [⟨"Refund", 1, 5⟩] "refund" 5 :=
  (trackSearch_case_insensitive_evict.2.2.1 [⟨"Refund", 1, 5⟩] "refund" 5
    ⟨"Refund", 1, 5⟩ (by decide)).2

/-! ### C6: getPopularSearches -/

theorem filter_orderedInsert (x : PopularSearch) (m : List PopularSearch) (c : Nat) :
    (List.orderedInsert countGE x m).filter (fun s => s.count == c) =
      if x.count = c then x :: m.filter (fun s => s.count == c)
      else m.filter (fun s => s.count == c) := by
  induction m with
  | nil => by_cases hx : x.count = c <;> simp [List.orderedInsert, hx]
  | cons y ys ih =>
    by_cases hxy : countGE x y
    · by_cases hx : x.count = c <;>
        simp [List.orderedInsert, hxy, hx]
    · have hlt : x.count < y.count := Nat.lt_of_not_le hxy
      simp only [List.orderedInsert, if_neg hxy, List.filter_cons]
      by_cases hy : y.count = c
      · have hx : ¬x.count = c := by omega
        simp [hy, hx, ih]
      · simp [hy, ih]

theorem filter_insertionSort (l : List PopularSearch) (c : Nat) :
    (List.insertionSort countGE l).filter (fun s => s.count == c) =
      l.filter (fun s => s.count == c) := by
  induction l with
  | nil => rfl
  | cons x xs ih =>
    show (List.orderedInsert countGE x (List.insertionSort countGE xs)).filter _ = _
    rw [filter_orderedInsert, ih, List.filter_cons]
    by_cases hx : x.count = c <;> simp [hx]

/-- C6 (amended): `getPopularSearches` returns the ranked snapshot —
sorted by strictly descending-or-equal count, truncated to the limit —
and removes no entry: the stored array afterwards is a permutation of
the stored array before, and within each count class the entries keep
their previous relative order (the sort is stable).  But the sort
happens **in place**: the stored array is replaced by the sorted one,
so the tie-break order is the array order current at call time, which
equals insertion/update order only until the first
`getPopularSearches` call. -/
theorem getPopularSearches_sorted_no_removal (st : MemStorage) (limit : Nat) :
    ((getPopularSearches st limit).2.popularSearches).Perm st.popularSearches
  ∧ (getPopularSearches st limit).2.conversations = st.conversations
  ∧ (getPopularSearches st limit).2.messages = st.messages
  ∧ (getPopularSearches st limit).2.faqs = st.faqs
  ∧ (getPopularSearches st limit).2.crmData = st.crmData
  ∧ (getPopularSearches st limit).1 =
      ((getPopularSearches st limit).2.popularSearches.take limit).map
        (fun s => (s.query, s.count))
  ∧ List.Sorted (fun p q : String × Nat => q.2 ≤ p.2) (getPopularSearches st limit).1
  ∧ (getPopularSearches st limit).1.length = min limit st.popularSearches.length
  ∧ (∀ c : Nat,
       (getPopularSearches st limit).2.popularSearches.filter (fun s => s.count == c) =
         st.popularSearches.filter (fun s => s.count == c)) := by
  refine ⟨List.perm_insertionSort _ _, rfl, rfl, rfl, rfl, rfl, ?_, ?_, ?_⟩
  · have hs : List.Sorted countGE (List.insertionSort countGE st.popularSearches) :=
      List.sorted_insertionSort _ _
    have htake : List.Sorted countGE
        ((List.insertionSort countGE st.popularSearches).take limit) :=
      List.Pairwise.sublist (List.take_sublist _ _) hs
    exact List.Pairwise.map _ (fun a b hab => hab) htake
  · show (((List.insertionSort countGE st.popularSearches).take limit).map _).length = _
    rw [List.length_map, List.length_take,
      (List.perm_insertionSort countGE st.popularSearches).length_eq]
  · intro c
    exact filter_insertionSort _ _

/-- The store after the probe sequence: track "a", "b", "c", "c", rank
once (sorting the array in place to c,a,b), then track "b" and "a"
again so that all three entries are tied at count 2. -/
def tieBreakProbe : MemStorage :=
  trackSearch
    (trackSearch
      ((getPopularSearches
        (trackSearch (trackSearch (trackSearch (trackSearch emptyStorage "a" 0) "b" 0) "c" 0)
          "c" 0) 5).2)
      "b" 0)
    "a" 0

/-- C6 counterexample: after a previous `getPopularSearches`, ties are
**not** broken by insertion/update order.  The queries were inserted
in order a, b, c and last updated in order c, b, a, yet the ranking of
the all-tied state is c, a, b — the order the earlier in-place sort
left behind. -/
theorem getPopularSearches_tiebreak_cex :
    (getPopularSearches tieBreakProbe 5).1 = [("c", 2), ("a", 2), ("b", 2)]
  ∧ (getPopularSearches tieBreakProbe 5).1 ≠ [("a", 2), ("b", 2), ("c", 2)]
  ∧ (getPopularSearches tieBreakProbe 5).1 ≠ [("c", 2), ("b", 2), ("a", 2)] :=
  ⟨by decide, by decide, by decide⟩

/-! ### C9: a reply-generation failure does not roll back -/

/-- C9: on a bound channel, when reply generation fails (the FAQ step
is not accepted and full generation errors), the handler has already
persisted the inbound user message — it stays in the store — while the
conversation map (hence the record's `summary` and `contextMemory`) is
untouched, and the socket has received exactly the user-message echo,
the typing indicator, and then a single `error` event.  The handling
of a `message` event is not atomic. -/
theorem gen_failure_not_atomic (st : MemStorage) (conn : ConnState)
    (payload : MsgPayload) (env : GenEnv) (now : Int) (cid : Nat) (e : String)
    (hb : conn.conversationId = some cid)
    (hfr : mapGet st.messages st.currentIds.message = none)
    (hg : faqGuard env.faqStep = false)
    (hfull : fullGeneration env (detectLanguage env) = Except.error e) :
    handleMessageEvent st conn payload env now =
      ((createMessage st (inboundInsert payload cid) now).2,
       { conn with contextMemory := some (updateConversationContext env) },
       [OutEvent.message (createMessage st (inboundInsert payload cid) now).1 none none none none,
        OutEvent.typing, OutEvent.error e])
  ∧ (createMessage st (inboundInsert payload cid) now).2.conversations = st.conversations
  ∧ (createMessage st (inboundInsert payload cid) now).2.messages =
      st.messages ++ [(st.currentIds.message, (createMessage st (inboundInsert payload cid) now).1)]
  ∧ (createMessage st (inboundInsert payload cid) now).1.role = "user"
  ∧ (createMessage st (inboundInsert payload cid) now).1.content = inboundContent payload := by
  have hmsgs : (createMessage st (inboundInsert payload cid) now).2.messages =
      st.messages ++ [(st.currentIds.message, (createMessage st (inboundInsert payload cid) now).1)] :=
    mapSet_of_get_none _ hfr
  have hist : getMessages (createMessage st (inboundInsert payload cid) now).2 cid =
      ((st.messages.map Prod.snd).filter (fun m => m.conversationId = cid)) ++
        [(createMessage st (inboundInsert payload cid) now).1] := by
    unfold getMessages
    rw [hmsgs, List.map_append, List.filter_append]
    have hcid : (createMessage st (inboundInsert payload cid) now).1.conversationId = cid := rfl
    simp [hcid]
  have hlast : ((getMessages (createMessage st (inboundInsert payload cid) now).2 cid).map
      (fun m => ChatMsg.mk m.role m.content)).getLast? =
      some (ChatMsg.mk "user" (inboundContent payload)) := by
    rw [hist, List.map_append]
    exact List.getLast?_concat _
  have hgen : generateResponse env
      ((getMessages (createMessage st (inboundInsert payload cid) now).2 cid).map
        (fun m => ChatMsg.mk m.role m.content))
      (getFAQs (createMessage st (inboundInsert payload cid) now).2 none)
      (some (updateConversationContext env))
      (createMessage st (inboundInsert payload cid) now).1.language = Except.error e := by
    rw [generateResponse_not_accepted env _ _ _ _ (ChatMsg.mk "user" (inboundContent payload))
      hlast hg, hfull]
  refine ⟨?_, rfl, hmsgs, rfl, rfl⟩
  simp only [handleMessageEvent, hb]
  rw [hgen]
  rfl

/-- An oracle whose main chat completion fails. -/
def failEnv : GenEnv := { probeEnv with chatCall := Except.error "boom" }

/-- The seeded store with one conversation created (id 1). -/
def boundStore : MemStorage :=
  (createConversation initialStorage ⟨"CUST001", some "active", some "en", none⟩).2

/-- Witness for C9: a bound channel whose reply generation fails keeps
the persisted user message, leaves the conversation map unchanged, and
sends echo, typing, then one error. -/
theorem gen_failure_not_atomic_witness :
    (createMessage boundStore (inboundInsert ⟨some "help", none⟩ 1) 7).2.conversations =
      boundStore.conversations
  ∧ handleMessageEvent boundStore ⟨some 1, none⟩ ⟨some "help", none⟩ failEnv 7 =
      ((createMessage boundStore (inboundInsert ⟨some "help", none⟩ 1) 7).2,
       { conversationId := some 1, contextMemory := some (updateConversationContext failEnv) },
       [OutEvent.message (createMessage boundStore (inboundInsert ⟨some "help", none⟩ 1) 7).1
          none none none none,
        OutEvent.typing, OutEvent.error "boom"]) :=
  ⟨(gen_failure_not_atomic boundStore ⟨some 1, none⟩ ⟨some "help", none⟩ failEnv 7 1 "boom"
      rfl (by decide) (by decide) (by decide)).2.1,
   (gen_failure_not_atomic boundStore ⟨some 1, none⟩ ⟨some "help", none⟩ failEnv 7 1 "boom"
      rfl (by decide) (by decide) (by decide)).1⟩
